import Mathlib

/-!
Verification of the inferrail job/escrow lifecycle, shallowly embedded from
the Move sources under contracts/inferrail/sources.  Addresses and u64/u8
values are modelled as Nat, byte vectors as lists of Nat, coins and balances
by their u64 value, and the Move abort semantics by an Except result: an
operation either returns the updated job (plus the coin transfers it
performed) or an abort code and, by abort semantics, no effect at all.
-/

namespace Inferrail

-- Abort codes from sources/errors.move.
namespace errors

def invalid_deadline : Nat := 1

def invalid_budget : Nat := 2

def invalid_state : Nat := 3

def only_requester_can_settle : Nat := 4

def only_requester_can_refund : Nat := 5

def only_worker_can_submit : Nat := 6

def job_not_expired : Nat := 7

def job_already_expired : Nat := 8

def requester_cannot_accept : Nat := 9

end errors

/-- Abort code of std::option::borrow on an empty option (EOPTION_NOT_SET in
the Move standard library); reachable job states never hit it. -/
def EOPTION_NOT_SET : Nat := 262145

def STATUS_CREATED : Nat := 0

def STATUS_ACCEPTED : Nat := 1

def STATUS_SUBMITTED : Nat := 2

def STATUS_SETTLED : Nat := 3

def STATUS_REFUNDED : Nat := 4

/-- The Job struct of task_market.move, without the opaque UID. The escrow
field carries the u64 value of the Balance it holds. -/
structure Job where
  requester : Nat
  worker : Option Nat
  description : String
  budget : Nat
  deadline_ms : Nat
  status : Nat
  result_uri : Option String
  result_hash : Option (List Nat)
  created_at_ms : Nat
  updated_at_ms : Nat
  escrow : Nat
deriving Repr, DecidableEq

/-- One coin transfer performed against the ledger (transfer::public_transfer
of a coin of the given value to the given address). -/
structure TransferOut where
  recipient : Nat
  amount : Nat
deriving Repr, DecidableEq

/-- escrow.move release_all_to: read the balance value, and when it is
positive split it all off and transfer it to the recipient.  Returns the
remaining balance, the returned payout value, and the transfers made. -/
def release_all_to (escrow : Nat) (recipient : Nat) : Nat × Nat × List TransferOut :=
  let payout := escrow
  if payout > 0 then
    (escrow - payout, payout, [⟨recipient, payout⟩])
  else
    (escrow, payout, [])

/-- escrow.move refund_all_to simply delegates to release_all_to. -/
def refund_all_to (escrow : Nat) (recipient : Nat) : Nat × Nat × List TransferOut :=
  release_all_to escrow recipient

/-- task_market.move create_job, with the coin argument replaced by its value
(escrow.move lock_funds is coin::into_balance, which keeps that value). -/
def create_job (description : String) (deadline_ms : Nat) (payment : Nat)
    (requester : Nat) (now_ms : Nat) : Except Nat Job :=
  if deadline_ms > now_ms then
    if payment > 0 then
      Except.ok
        { requester := requester
          worker := none
          description := description
          budget := payment
          deadline_ms := deadline_ms
          status := STATUS_CREATED
          result_uri := none
          result_hash := none
          created_at_ms := now_ms
          updated_at_ms := now_ms
          escrow := payment }
    else Except.error errors.invalid_budget
  else Except.error errors.invalid_deadline

/-- task_market.move accept_job_internal, assert order preserved. -/
def accept_job_internal (job : Job) (sender : Nat) (now_ms : Nat) : Except Nat Job :=
  if job.status = STATUS_CREATED then
    if sender ≠ job.requester then
      if now_ms ≤ job.deadline_ms then
        Except.ok
          { job with
            worker := some sender
            status := STATUS_ACCEPTED
            updated_at_ms := now_ms }
      else Except.error errors.job_already_expired
    else Except.error errors.requester_cannot_accept
  else Except.error errors.invalid_state

/-- task_market.move submit_result_internal, assert order preserved: state,
then expiry, then the borrow of the worker and the identity check. -/
def submit_result_internal (job : Job) (sender : Nat) (result_uri : String)
    (result_hash : List Nat) (now_ms : Nat) : Except Nat Job :=
  if job.status = STATUS_ACCEPTED then
    if now_ms ≤ job.deadline_ms then
      match job.worker with
      | none => Except.error EOPTION_NOT_SET
      | some worker =>
        if worker = sender then
          Except.ok
            { job with
              result_uri := some result_uri
              result_hash := some result_hash
              status := STATUS_SUBMITTED
              updated_at_ms := now_ms }
        else Except.error errors.only_worker_can_submit
    else Except.error errors.job_already_expired
  else Except.error errors.invalid_state

/-- task_market.move settle_job_internal: state check, requester check,
borrow of the worker, full escrow release to the worker. -/
def settle_job_internal (job : Job) (sender : Nat) (now_ms : Nat) :
    Except Nat (Job × List TransferOut) :=
  if job.status = STATUS_SUBMITTED then
    if sender = job.requester then
      match job.worker with
      | none => Except.error EOPTION_NOT_SET
      | some worker =>
        let r := release_all_to job.escrow worker
        Except.ok
          ({ job with
             escrow := r.1
             status := STATUS_SETTLED
             updated_at_ms := now_ms }, r.2.2)
    else Except.error errors.only_requester_can_settle
  else Except.error errors.invalid_state

/-- task_market.move refund_job_internal: non-terminal state check, requester
check, strict expiry check, full escrow refund to the sender. -/
def refund_job_internal (job : Job) (sender : Nat) (now_ms : Nat) :
    Except Nat (Job × List TransferOut) :=
  if job.status = STATUS_CREATED ∨ job.status = STATUS_ACCEPTED ∨
      job.status = STATUS_SUBMITTED then
    if sender = job.requester then
      if now_ms > job.deadline_ms then
        let r := refund_all_to job.escrow sender
        Except.ok
          ({ job with
             escrow := r.1
             status := STATUS_REFUNDED
             updated_at_ms := now_ms }, r.2.2)
      else Except.error errors.job_not_expired
    else Except.error errors.only_requester_can_refund
  else Except.error errors.invalid_state

/-- One lifecycle call against an existing job, with its sender and the clock
value the entry function reads. -/
inductive Op where
  | accept (sender : Nat) (now_ms : Nat)
  | submit (sender : Nat) (result_uri : String) (result_hash : List Nat) (now_ms : Nat)
  | settle (sender : Nat) (now_ms : Nat)
  | refund (sender : Nat) (now_ms : Nat)
deriving Repr, DecidableEq

/-- The clock value an operation carries. -/
def opNow : Op → Nat
  | .accept _ n => n
  | .submit _ _ _ n => n
  | .settle _ n => n
  | .refund _ n => n

/-- Dispatch one operation; accept and submit perform no transfers. -/
def step (job : Job) : Op → Except Nat (Job × List TransferOut)
  | .accept s n => (accept_job_internal job s n).map (fun j => (j, []))
  | .submit s u d n => (submit_result_internal job s u d n).map (fun j => (j, []))
  | .settle s n => settle_job_internal job s n
  | .refund s n => refund_job_internal job s n

/-- Move abort semantics: a failed call leaves the shared Job object exactly
as it was and transfers nothing. -/
def applyOp (job : Job) (op : Op) : Job × List TransferOut :=
  match step job op with
  | .ok r => r
  | .error _ => (job, [])

/-- Run a sequence of calls against one job, collecting all transfers. -/
def run (job : Job) : List Op → Job × List TransferOut
  | [] => (job, [])
  | op :: rest =>
    let r := applyOp job op
    let r2 := run r.1 rest
    (r2.1, r.2 ++ r2.2)

/-- The three non-terminal status values. -/
def statusNonTerminal (s : Nat) : Bool :=
  s == STATUS_CREATED || s == STATUS_ACCEPTED || s == STATUS_SUBMITTED

/-- The two terminal status values. -/
def statusTerminal (s : Nat) : Bool :=
  s == STATUS_SETTLED || s == STATUS_REFUNDED

/-- A concrete freshly created job, as create_job returns it. -/
def jobCreatedEx : Job :=
  { requester := 7
    worker := none
    description := "d"
    budget := 25
    deadline_ms := 100
    status := STATUS_CREATED
    result_uri := none
    result_hash := none
    created_at_ms := 10
    updated_at_ms := 10
    escrow := 25 }

/-- The example job after acceptance by worker 2 at time 20. -/
def jobAcceptedEx : Job :=
  { jobCreatedEx with worker := some 2, status := STATUS_ACCEPTED, updated_at_ms := 20 }

/-- The example job after submission by worker 2 at time 30. -/
def jobSubmittedEx : Job :=
  { jobAcceptedEx with
    result_uri := some "u"
    result_hash := some [1, 2]
    status := STATUS_SUBMITTED
    updated_at_ms := 30 }

/-- The example job after settlement by the requester at time 40. -/
def jobSettledEx : Job :=
  { jobSubmittedEx with status := STATUS_SETTLED, updated_at_ms := 40, escrow := 0 }

/-- Success shape of accept_job_internal: exactly the three guards of the
source, and the exact record update it performs. -/
lemma accept_ok_iff (job : Job) (s n : Nat) (j : Job) :
    accept_job_internal job s n = Except.ok j ↔
      job.status = STATUS_CREATED ∧ s ≠ job.requester ∧ n ≤ job.deadline_ms ∧
      j = { job with worker := some s, status := STATUS_ACCEPTED, updated_at_ms := n } := by
  unfold accept_job_internal
  split_ifs with h1 h2 h3 <;> simp_all [eq_comm]

/-- Success shape of submit_result_internal. -/
lemma submit_ok_iff (job : Job) (s : Nat) (u : String) (d : List Nat) (n : Nat) (j : Job) :
    submit_result_internal job s u d n = Except.ok j ↔
      job.status = STATUS_ACCEPTED ∧ n ≤ job.deadline_ms ∧ job.worker = some s ∧
      j = { job with
            result_uri := some u
            result_hash := some d
            status := STATUS_SUBMITTED
            updated_at_ms := n } := by
  unfold submit_result_internal
  cases hw : job.worker with
  | none => split_ifs <;> simp_all
  | some w =>
    split_ifs <;> simp_all [eq_comm]
    split_ifs <;> simp_all [eq_comm]

/-- Success shape of settle_job_internal. -/
lemma settle_ok_iff (job : Job) (s n : Nat) (p : Job × List TransferOut) :
    settle_job_internal job s n = Except.ok p ↔
      ∃ w, job.status = STATUS_SUBMITTED ∧ s = job.requester ∧ job.worker = some w ∧
        p = ({ job with
               escrow := (release_all_to job.escrow w).1
               status := STATUS_SETTLED
               updated_at_ms := n },
             (release_all_to job.escrow w).2.2) := by
  unfold settle_job_internal
  cases hw : job.worker with
  | none => split_ifs <;> simp_all
  | some w => split_ifs <;> simp_all [eq_comm]

/-- Success shape of refund_job_internal. -/
lemma refund_ok_iff (job : Job) (s n : Nat) (p : Job × List TransferOut) :
    refund_job_internal job s n = Except.ok p ↔
      (job.status = STATUS_CREATED ∨ job.status = STATUS_ACCEPTED ∨
        job.status = STATUS_SUBMITTED) ∧ s = job.requester ∧ job.deadline_ms < n ∧
      p = ({ job with
             escrow := (refund_all_to job.escrow s).1
             status := STATUS_REFUNDED
             updated_at_ms := n },
           (refund_all_to job.escrow s).2.2) := by
  unfold refund_job_internal
  split_ifs <;> simp_all [eq_comm]

/-- Case analysis on a successful step: which operation ran, which source
guards its success certifies, and the exact job update and transfer list it
produced. -/
lemma step_ok_cases {job : Job} {op : Op} {j : Job} {ts : List TransferOut}
    (hok : step job op = Except.ok (j, ts)) :
    (∃ s n, op = Op.accept s n ∧ job.status = STATUS_CREATED ∧
      s ≠ job.requester ∧ n ≤ job.deadline_ms ∧ ts = [] ∧
      j = { job with
            worker := some s
            status := STATUS_ACCEPTED
            updated_at_ms := n }) ∨
    (∃ s u d n, op = Op.submit s u d n ∧ job.status = STATUS_ACCEPTED ∧
      n ≤ job.deadline_ms ∧ job.worker = some s ∧ ts = [] ∧
      j = { job with
            result_uri := some u
            result_hash := some d
            status := STATUS_SUBMITTED
            updated_at_ms := n }) ∨
    (∃ s n w, op = Op.settle s n ∧ job.status = STATUS_SUBMITTED ∧
      s = job.requester ∧ job.worker = some w ∧
      j = { job with
            escrow := (release_all_to job.escrow w).1
            status := STATUS_SETTLED
            updated_at_ms := n } ∧
      ts = (release_all_to job.escrow w).2.2) ∨
    (∃ s n, op = Op.refund s n ∧
      (job.status = STATUS_CREATED ∨ job.status = STATUS_ACCEPTED ∨
        job.status = STATUS_SUBMITTED) ∧ s = job.requester ∧
      job.deadline_ms < n ∧
      j = { job with
            escrow := (refund_all_to job.escrow s).1
            status := STATUS_REFUNDED
            updated_at_ms := n } ∧
      ts = (refund_all_to job.escrow s).2.2) := by
  cases op with
  | accept s n =>
    refine Or.inl ?_
    cases ha : accept_job_internal job s n with
    | error e => simp [step, ha, Except.map] at hok
    | ok j0 =>
      simp only [step, ha, Except.map, Except.ok.injEq, Prod.mk.injEq] at hok
      obtain ⟨hj, hts⟩ := hok
      obtain ⟨h1, h2, h3, h4⟩ := (accept_ok_iff job s n j0).mp ha
      exact ⟨s, n, rfl, h1, h2, h3, hts.symm, hj ▸ h4⟩
  | submit s u d n =>
    refine Or.inr (Or.inl ?_)
    cases ha : submit_result_internal job s u d n with
    | error e => simp [step, ha, Except.map] at hok
    | ok j0 =>
      simp only [step, ha, Except.map, Except.ok.injEq, Prod.mk.injEq] at hok
      obtain ⟨hj, hts⟩ := hok
      obtain ⟨h1, h2, h3, h4⟩ := (submit_ok_iff job s u d n j0).mp ha
      exact ⟨s, u, d, n, rfl, h1, h2, h3, hts.symm, hj ▸ h4⟩
  | settle s n =>
    refine Or.inr (Or.inr (Or.inl ?_))
    obtain ⟨w, h1, h2, h3, h4⟩ := (settle_ok_iff job s n (j, ts)).mp hok
    simp only [Prod.mk.injEq] at h4
    exact ⟨s, n, w, rfl, h1, h2, h3, h4.1, h4.2⟩
  | refund s n =>
    refine Or.inr (Or.inr (Or.inr ?_))
    obtain ⟨h1, h2, h3, h4⟩ := (refund_ok_iff job s n (j, ts)).mp hok
    simp only [Prod.mk.injEq] at h4
    exact ⟨s, n, rfl, h1, h2, h3, h2 ▸ h4.1, h2 ▸ h4.2⟩

/-- Escrow bookkeeping invariant of a job created with budget B by
requester req: the budget and requester fields are fixed, the budget is
positive, the escrow holds exactly the budget while the status is
non-terminal and exactly zero once it is terminal, and the status value is
one of the five defined ones. -/
def EscrowInv (B req : Nat) (j : Job) : Prop :=
  j.budget = B ∧ j.requester = req ∧ 0 < B ∧
  (statusNonTerminal j.status = true → j.escrow = B) ∧
  (statusTerminal j.status = true → j.escrow = 0) ∧
  (statusNonTerminal j.status = true ∨ statusTerminal j.status = true)

/-- One once the job has reached a terminal status, zero before. -/
def paidFlag (j : Job) : Nat :=
  if statusTerminal j.status = true then 1 else 0

/-- A created job satisfies the invariant with no payout recorded. -/
lemma create_job_ok_inv {d : String} {dl pay req now : Nat} {j : Job}
    (h : create_job d dl pay req now = Except.ok j) :
    EscrowInv pay req j ∧ paidFlag j = 0 ∧ j.budget = pay ∧
    j.requester = req ∧ j.status = STATUS_CREATED := by
  unfold create_job at h
  split_ifs at h with h1 h2
  · injection h with h
    subst h
    refine ⟨⟨rfl, rfl, h2, fun _ => rfl, ?_, Or.inl ?_⟩, ?_, rfl, rfl, rfl⟩ <;>
      simp [statusTerminal, statusNonTerminal, paidFlag, STATUS_CREATED,
        STATUS_SETTLED, STATUS_REFUNDED, STATUS_ACCEPTED, STATUS_SUBMITTED]

/-- One call preserves the invariant; every transfer it makes carries the
full budget; and the terminal flag absorbs exactly the number of transfers
made. -/
lemma applyOp_escrow_inv {B req : Nat} {j : Job} (h : EscrowInv B req j)
    (op : Op) :
    EscrowInv B req (applyOp j op).1 ∧
    (∀ t ∈ (applyOp j op).2, t.amount = B) ∧
    paidFlag j + (applyOp j op).2.length = paidFlag (applyOp j op).1 := by
  obtain ⟨hb, hr, hpos, hnt, hterm, hvalid⟩ := h
  unfold applyOp
  cases hs : step j op with
  | error e => exact ⟨⟨hb, hr, hpos, hnt, hterm, hvalid⟩, by simp, by simp⟩
  | ok r =>
    obtain ⟨j1, ts⟩ := r
    have hesc : statusNonTerminal j.status = true → j.escrow = B := hnt
    rcases step_ok_cases hs with
      ⟨s, n, _, h1, _, _, hts, hj⟩ | ⟨s, u, d, n, _, h1, _, _, hts, hj⟩ |
      ⟨s, n, w, _, h1, h2, _, hj, hts⟩ | ⟨s, n, _, h1, h2, _, hj, hts⟩
    · subst hj
      subst hts
      have he : j.escrow = B := hesc (by simp [statusNonTerminal, h1])
      refine ⟨⟨hb, hr, hpos, fun _ => he, ?_, Or.inl ?_⟩, by simp, ?_⟩ <;>
        simp [statusTerminal, statusNonTerminal, paidFlag, h1,
          STATUS_CREATED, STATUS_ACCEPTED, STATUS_SETTLED, STATUS_REFUNDED,
          STATUS_SUBMITTED]
    · subst hj
      subst hts
      have he : j.escrow = B := hesc (by simp [statusNonTerminal, h1])
      refine ⟨⟨hb, hr, hpos, fun _ => he, ?_, Or.inl ?_⟩, by simp, ?_⟩ <;>
        simp [statusTerminal, statusNonTerminal, paidFlag, h1,
          STATUS_CREATED, STATUS_ACCEPTED, STATUS_SETTLED, STATUS_REFUNDED,
          STATUS_SUBMITTED]
    · subst hj
      subst hts
      have he : j.escrow = B := hesc (by simp [statusNonTerminal, h1])
      have hrel : release_all_to j.escrow w = (0, B, [⟨w, B⟩]) := by
        simp [release_all_to, he, hpos]
      refine ⟨⟨hb, hr, hpos, ?_, fun _ => by simp [hrel], Or.inr ?_⟩, ?_, ?_⟩
      · intro hcon
        simp [statusNonTerminal, STATUS_SETTLED, STATUS_CREATED,
          STATUS_ACCEPTED, STATUS_SUBMITTED] at hcon
      · simp [statusTerminal, STATUS_SETTLED, STATUS_REFUNDED]
      · intro t ht
        simp [hrel] at ht
        simp [ht]
      · simp [paidFlag, statusTerminal, hrel, h1, STATUS_SETTLED,
          STATUS_REFUNDED, STATUS_SUBMITTED]
    · subst hj
      subst hts
      have he : j.escrow = B := by
        refine hesc ?_
        rcases h1 with h1 | h1 | h1 <;> simp [statusNonTerminal, h1]
      have hrel : refund_all_to j.escrow s = (0, B, [⟨s, B⟩]) := by
        simp [refund_all_to, release_all_to, he, hpos]
      refine ⟨⟨hb, hr, hpos, ?_, fun _ => by simp [hrel], Or.inr ?_⟩, ?_, ?_⟩
      · intro hcon
        simp [statusNonTerminal, STATUS_REFUNDED, STATUS_CREATED,
          STATUS_ACCEPTED, STATUS_SUBMITTED] at hcon
      · simp [statusTerminal, STATUS_SETTLED, STATUS_REFUNDED]
      · intro t ht
        simp [hrel] at ht
        simp [ht]
      · rcases h1 with h1 | h1 | h1 <;>
          simp [paidFlag, statusTerminal, hrel, h1, STATUS_CREATED,
            STATUS_ACCEPTED, STATUS_SUBMITTED, STATUS_SETTLED, STATUS_REFUNDED]

/-- The invariant, the full-budget transfers and the payout count carry
over to whole runs. -/
lemma run_escrow_inv {B req : Nat} {j : Job} (h : EscrowInv B req j)
    (ops : List Op) :
    EscrowInv B req (run j ops).1 ∧
    (∀ t ∈ (run j ops).2, t.amount = B) ∧
    paidFlag j + (run j ops).2.length = paidFlag (run j ops).1 := by
  induction ops generalizing j with
  | nil => exact ⟨h, by simp [run], by simp [run]⟩
  | cons op rest ih =>
    obtain ⟨h1, h2, h3⟩ := applyOp_escrow_inv h op
    obtain ⟨h4, h5, h6⟩ := ih h1
    refine ⟨h4, ?_, ?_⟩
    · intro t ht
      simp only [run, List.mem_append] at ht
      rcases ht with ht | ht
      · exact h2 t ht
      · exact h5 t ht
    · simp only [run, List.length_append]
      omega

/-- C2: every lifecycle call either succeeds with its effects, or fails with
an abort code and leaves the job unchanged with no transfer performed; a
failing create_job likewise produces no job at all. -/
theorem guard_failure_is_atomic :
    (∀ (job : Job) (op : Op),
      (∃ j ts, step job op = Except.ok (j, ts)) ∨
      (∃ e, step job op = Except.error e ∧ applyOp job op = (job, []))) ∧
    (∀ (d : String) (dl pay req now : Nat),
      (∃ j, create_job d dl pay req now = Except.ok j) ∨
      (∃ e, create_job d dl pay req now = Except.error e)) := by
  constructor
  · intro job op
    cases hs : step job op with
    | ok r =>
      obtain ⟨j, ts⟩ := r
      exact Or.inl ⟨j, ts, rfl⟩
    | error e => exact Or.inr ⟨e, rfl, by simp [applyOp, hs]⟩
  · intro d dl pay req now
    cases hc : create_job d dl pay req now with
    | ok j => exact Or.inl ⟨j, rfl⟩
    | error e => exact Or.inr ⟨e, rfl⟩

/-- C3 counterexample: on an Accepted job whose deadline has passed, a sender
other than the assigned worker is rejected with the expiry abort code, not
with the worker-authorization abort code, because submit_result_internal
checks the deadline before borrowing and comparing the worker. -/
theorem submit_wrong_actor_after_expiry_counterexample :
    submit_result_internal jobAcceptedEx 3 "u" [0] 101 =
      Except.error errors.job_already_expired ∧
    errors.job_already_expired ≠ errors.only_worker_can_submit :=
  ⟨rfl, by decide⟩

/-- C3 amended: in submit_result only the wrong-state check and the expiry
check precede authorization; a sender other than the assigned worker gets the
worker-authorization error exactly when the deadline has not passed, and the
expiry error once it has. -/
theorem submit_expiry_precedes_authorization (job : Job) (sender w : Nat)
    (u : String) (d : List Nat) (now_ms : Nat)
    (hst : job.status = STATUS_ACCEPTED) (hw : job.worker = some w)
    (hs : sender ≠ w) :
    (now_ms ≤ job.deadline_ms →
      submit_result_internal job sender u d now_ms =
        Except.error errors.only_worker_can_submit) ∧
    (job.deadline_ms < now_ms →
      submit_result_internal job sender u d now_ms =
        Except.error errors.job_already_expired) := by
  constructor
  · intro hle
    have hws : ¬ (w = sender) := fun hh => hs hh.symm
    simp [submit_result_internal, hst, hw, hle, hws]
  · intro hlt
    simp [submit_result_internal, hst, hw, Nat.not_le.mpr hlt]

/-- Witness for the amended C3 theorem at a concrete job and sender. -/
theorem submit_expiry_precedes_authorization_witness :
    (50 ≤ jobAcceptedEx.deadline_ms →
      submit_result_internal jobAcceptedEx 3 "u" [0] 50 =
        Except.error errors.only_worker_can_submit) ∧
    (jobAcceptedEx.deadline_ms < 50 →
      submit_result_internal jobAcceptedEx 3 "u" [0] 50 =
        Except.error errors.job_already_expired) :=
  submit_expiry_precedes_authorization jobAcceptedEx 3 2 "u" [0] 50 rfl rfl
    (by decide)

/-- C4 counterexample: on an Accepted job, the assigned worker submitting an
empty result reference before the deadline succeeds and moves the job to
Submitted; the contract has no empty-reference validation and no such abort
code exists in errors.move. -/
theorem submit_empty_reference_accepted_counterexample :
    submit_result_internal jobAcceptedEx 2 "" [] 50 =
      Except.ok
        { jobAcceptedEx with
          result_uri := some ""
          result_hash := some []
          status := STATUS_SUBMITTED
          updated_at_ms := 50 } ∧
    STATUS_SUBMITTED ≠ STATUS_ACCEPTED :=
  ⟨rfl, by decide⟩

/-- C4 amended: an empty result reference passes submit_result unchecked;
whenever the state, authorization and deadline guards pass, the call succeeds
and stores the empty reference. -/
theorem submit_accepts_empty_reference (job : Job) (sender : Nat)
    (d : List Nat) (now_ms : Nat) (hst : job.status = STATUS_ACCEPTED)
    (hw : job.worker = some sender) (hle : now_ms ≤ job.deadline_ms) :
    submit_result_internal job sender "" d now_ms =
      Except.ok
        { job with
          result_uri := some ""
          result_hash := some d
          status := STATUS_SUBMITTED
          updated_at_ms := now_ms } := by
  simp [submit_result_internal, hst, hw, hle]

/-- Witness for the amended C4 theorem at a concrete job. -/
theorem submit_accepts_empty_reference_witness :
    submit_result_internal jobAcceptedEx 2 "" [9] 50 =
      Except.ok
        { jobAcceptedEx with
          result_uri := some ""
          result_hash := some [9]
          status := STATUS_SUBMITTED
          updated_at_ms := 50 } :=
  submit_accepts_empty_reference jobAcceptedEx 2 [9] 50 rfl rfl (by decide)

/-- C5: refund by the requester on a non-terminal job fails with the
not-yet-expired code when now equals the deadline, and succeeds at
deadline plus one, leaving the job Refunded: the expiry comparison is
strict. -/
theorem refund_timeout_boundary_strict (job : Job)
    (hst : statusNonTerminal job.status = true) :
    refund_job_internal job job.requester job.deadline_ms =
      Except.error errors.job_not_expired ∧
    ∃ j ts, refund_job_internal job job.requester (job.deadline_ms + 1) =
      Except.ok (j, ts) ∧ j.status = STATUS_REFUNDED := by
  have hst' : job.status = STATUS_CREATED ∨ job.status = STATUS_ACCEPTED ∨
      job.status = STATUS_SUBMITTED := by
    simpa [statusNonTerminal, or_assoc] using hst
  constructor
  · simp [refund_job_internal, hst']
  · refine ⟨{ job with
        escrow := (refund_all_to job.escrow job.requester).1
        status := STATUS_REFUNDED
        updated_at_ms := job.deadline_ms + 1 },
      (refund_all_to job.escrow job.requester).2.2, ?_, rfl⟩
    rw [refund_ok_iff]
    exact ⟨hst', rfl, Nat.lt_succ_self _, rfl⟩

/-- Witness for the C5 theorem at a concrete accepted job. -/
theorem refund_timeout_boundary_strict_witness :
    refund_job_internal jobAcceptedEx 7 100 =
      Except.error errors.job_not_expired ∧
    ∃ j ts, refund_job_internal jobAcceptedEx 7 101 =
      Except.ok (j, ts) ∧ j.status = STATUS_REFUNDED :=
  refund_timeout_boundary_strict jobAcceptedEx (by decide)

/-- C6: settle by the requester on a Submitted job succeeds for every clock
value, with no deadline guard; it zeroes the escrow, marks the job Settled,
and pays the full escrow balance to the assigned worker. -/
theorem settle_has_no_deadline_guard (job : Job) (now_ms w : Nat)
    (hst : job.status = STATUS_SUBMITTED) (hw : job.worker = some w) :
    ∃ j ts, settle_job_internal job job.requester now_ms = Except.ok (j, ts) ∧
      j.status = STATUS_SETTLED ∧ j.escrow = 0 ∧ j.updated_at_ms = now_ms ∧
      (0 < job.escrow → ts = [⟨w, job.escrow⟩]) ∧
      (job.escrow = 0 → ts = []) := by
  refine ⟨{ job with
      escrow := (release_all_to job.escrow w).1
      status := STATUS_SETTLED
      updated_at_ms := now_ms },
    (release_all_to job.escrow w).2.2, ?_, rfl, ?_, rfl, ?_, ?_⟩
  · rw [settle_ok_iff]
    exact ⟨w, hst, rfl, hw, rfl⟩
  · by_cases h : 0 < job.escrow
    · simp [release_all_to, h]
    · simp [release_all_to, h, Nat.eq_zero_of_not_pos h]
  · intro h
    simp [release_all_to, h]
  · intro h
    simp [release_all_to, h]

/-- Witness for the C6 theorem: settlement succeeds even one past the
deadline of the concrete submitted job. -/
theorem settle_has_no_deadline_guard_witness :
    ∃ j ts, settle_job_internal jobSubmittedEx 7 101 = Except.ok (j, ts) ∧
      j.status = STATUS_SETTLED ∧ j.escrow = 0 ∧ j.updated_at_ms = 101 ∧
      (0 < jobSubmittedEx.escrow → ts = [⟨2, jobSubmittedEx.escrow⟩]) ∧
      (jobSubmittedEx.escrow = 0 → ts = []) :=
  settle_has_no_deadline_guard jobSubmittedEx 101 2 rfl rfl

/-- C8: on a Created job, an accept call by the requester itself fails with
the self-acceptance abort code for every clock value, before and after the
deadline; the identity check precedes the expiry check. -/
theorem accept_self_always_rejected (job : Job) (now_ms : Nat)
    (hst : job.status = STATUS_CREATED) :
    accept_job_internal job job.requester now_ms =
      Except.error errors.requester_cannot_accept := by
  simp [accept_job_internal, hst]

/-- Witness for the C8 theorem, both before and after the deadline of the
concrete created job. -/
theorem accept_self_always_rejected_witness :
    accept_job_internal jobCreatedEx 7 50 =
      Except.error errors.requester_cannot_accept ∧
    accept_job_internal jobCreatedEx 7 101 =
      Except.error errors.requester_cannot_accept :=
  ⟨accept_self_always_rejected jobCreatedEx 50 rfl,
   accept_self_always_rejected jobCreatedEx 101 rfl⟩

/-- C9 counterexample: a successful submit whose clock value equals the
previous updated_at_ms leaves updated_at_ms equal, not strictly greater: the
code only assigns the supplied now to updated_at_ms. -/
theorem updated_at_strict_advance_counterexample :
    submit_result_internal jobAcceptedEx 2 "u" [0] 20 =
      Except.ok
        { jobAcceptedEx with
          result_uri := some "u"
          result_hash := some [0]
          status := STATUS_SUBMITTED
          updated_at_ms := 20 } ∧
    ¬ (jobAcceptedEx.updated_at_ms <
        ({ jobAcceptedEx with
           result_uri := some "u"
           result_hash := some [0]
           status := STATUS_SUBMITTED
           updated_at_ms := 20 } : Job).updated_at_ms) :=
  ⟨rfl, by decide⟩

/-- C9 amended: every successful operation sets updated_at_ms to the clock
value it was called with, so updated_at_ms strictly advances exactly when
that clock value exceeds the previous updated_at_ms. -/
theorem updated_at_set_to_now (job : Job) (op : Op) (j : Job)
    (ts : List TransferOut) (hok : step job op = Except.ok (j, ts)) :
    j.updated_at_ms = opNow op ∧
    (job.updated_at_ms < opNow op → job.updated_at_ms < j.updated_at_ms) := by
  have hj : j.updated_at_ms = opNow op := by
    rcases step_ok_cases hok with
      ⟨s, n, _, _, _, _, _, hj⟩ | ⟨s, u, d, n, _, _, _, _, _, hj⟩ |
      ⟨s, n, w, _, _, _, _, hj, _⟩ | ⟨s, n, _, _, _, _, hj, _⟩ <;>
    subst hj <;> simp_all [opNow]
  exact ⟨hj, fun h => hj ▸ h⟩

/-- Every successful step strictly increases the numeric status value. -/
lemma step_ok_status_lt {job : Job} {op : Op} {j : Job} {ts : List TransferOut}
    (hok : step job op = Except.ok (j, ts)) : job.status < j.status := by
  rcases step_ok_cases hok with
    ⟨s, n, _, h1, _, _, _, hj⟩ | ⟨s, u, d, n, _, h1, _, _, _, hj⟩ |
    ⟨s, n, w, _, h1, _, _, hj, _⟩ | ⟨s, n, _, h1, _, _, hj, _⟩ <;>
  subst hj <;>
  · simp_all [STATUS_CREATED, STATUS_ACCEPTED, STATUS_SUBMITTED, STATUS_SETTLED,
      STATUS_REFUNDED]
    try omega

/-- A failed or successful call never decreases the status value. -/
lemma applyOp_status_le (job : Job) (op : Op) :
    job.status ≤ (applyOp job op).1.status := by
  unfold applyOp
  cases hs : step job op with
  | error e => exact Nat.le_refl _
  | ok r =>
    obtain ⟨j, ts⟩ := r
    exact Nat.le_of_lt (step_ok_status_lt hs)

/-- The status value is monotone along any run of calls. -/
lemma run_status_le (job : Job) (ops : List Op) :
    job.status ≤ (run job ops).1.status := by
  induction ops generalizing job with
  | nil => exact Nat.le_refl _
  | cons op rest ih =>
    exact Nat.le_trans (applyOp_status_le job op) (ih (applyOp job op).1)

/-- On a terminal job every call aborts with the invalid-state code. -/
lemma step_terminal_invalid_state (job : Job) (op : Op)
    (hterm : statusTerminal job.status = true) :
    step job op = Except.error errors.invalid_state := by
  have h34 : job.status = STATUS_SETTLED ∨ job.status = STATUS_REFUNDED := by
    simpa [statusTerminal] using hterm
  rcases h34 with h | h <;> cases op <;>
    simp [step, accept_job_internal, submit_result_internal,
      settle_job_internal, refund_job_internal, Except.map, h,
      STATUS_CREATED, STATUS_ACCEPTED, STATUS_SUBMITTED, STATUS_SETTLED,
      STATUS_REFUNDED]

/-- C7: the status value strictly increases on every successful operation,
is monotone along every sequence of calls (so a status value once left is
never revisited), and once the job is Settled or Refunded every further
operation fails with the invalid-state code. -/
theorem status_never_revisits :
    (∀ (job : Job) (op : Op) (j : Job) (ts : List TransferOut),
      step job op = Except.ok (j, ts) → job.status < j.status) ∧
    (∀ (job : Job) (op : Op), statusTerminal job.status = true →
      step job op = Except.error errors.invalid_state) ∧
    (∀ (job : Job) (ops : List Op), job.status ≤ (run job ops).1.status) :=
  ⟨fun _ _ _ _ h => step_ok_status_lt h,
   fun job op h => step_terminal_invalid_state job op h,
   fun job ops => run_status_le job ops⟩

/-- Witness for the C7 theorem at concrete jobs. -/
theorem status_never_revisits_witness :
    jobCreatedEx.status < jobAcceptedEx.status ∧
    step jobSettledEx (Op.settle 7 200) = Except.error errors.invalid_state ∧
    jobCreatedEx.status ≤ (run jobCreatedEx [Op.accept 2 20]).1.status :=
  ⟨status_never_revisits.1 jobCreatedEx (Op.accept 2 20) jobAcceptedEx [] rfl,
   status_never_revisits.2.1 jobSettledEx (Op.settle 7 200) rfl,
   status_never_revisits.2.2 jobCreatedEx [Op.accept 2 20]⟩

/-- Witness for the amended C9 theorem at a concrete accepted job. -/
theorem updated_at_set_to_now_witness :
    ({ jobAcceptedEx with
       result_uri := some "u"
       result_hash := some [0]
       status := STATUS_SUBMITTED
       updated_at_ms := 50 } : Job).updated_at_ms = opNow (Op.submit 2 "u" [0] 50) ∧
    (jobAcceptedEx.updated_at_ms < opNow (Op.submit 2 "u" [0] 50) →
      jobAcceptedEx.updated_at_ms <
        ({ jobAcceptedEx with
           result_uri := some "u"
           result_hash := some [0]
           status := STATUS_SUBMITTED
           updated_at_ms := 50 } : Job).updated_at_ms) :=
  updated_at_set_to_now jobAcceptedEx (Op.submit 2 "u" [0] 50) _ [] rfl

/-- C10: submit_result performs no validation of the result digest: for
every byte vector, of any length including zero, a call that passes the
state, authorization and deadline guards succeeds and stores that digest
verbatim in the job. -/
theorem submit_stores_digest_verbatim (job : Job) (sender : Nat) (u : String)
    (digest : List Nat) (now_ms : Nat) (hst : job.status = STATUS_ACCEPTED)
    (hw : job.worker = some sender) (hle : now_ms ≤ job.deadline_ms) :
    submit_result_internal job sender u digest now_ms =
      Except.ok
        { job with
          result_uri := some u
          result_hash := some digest
          status := STATUS_SUBMITTED
          updated_at_ms := now_ms } := by
  simp [submit_result_internal, hst, hw, hle]

/-- Witness for the C10 theorem with an empty digest and with one of length
three, neither of which is 32 bytes long. -/
theorem submit_stores_digest_verbatim_witness :
    submit_result_internal jobAcceptedEx 2 "u" [] 50 =
      Except.ok
        { jobAcceptedEx with
          result_uri := some "u"
          result_hash := some []
          status := STATUS_SUBMITTED
          updated_at_ms := 50 } ∧
    submit_result_internal jobAcceptedEx 2 "u" [1, 2, 3] 60 =
      Except.ok
        { jobAcceptedEx with
          result_uri := some "u"
          result_hash := some [1, 2, 3]
          status := STATUS_SUBMITTED
          updated_at_ms := 60 } :=
  ⟨submit_stores_digest_verbatim jobAcceptedEx 2 "u" [] 50 rfl rfl (by decide),
   submit_stores_digest_verbatim jobAcceptedEx 2 "u" [1, 2, 3] 60 rfl rfl
     (by decide)⟩

/-- C1: for a job created with positive deposited budget, the escrow equals
that budget in every non-terminal status reached by any sequence of calls
and is zero in the terminal ones; the whole run performs at most one
transfer, every transfer carries the full budget, a successful settle from
the reached state pays exactly the budget to the assigned worker, and a
successful refund pays exactly the budget back to the requester. -/
theorem escrow_funds_conservation (d : String) (dl pay req now : Nat)
    (j0 : Job) (hc : create_job d dl pay req now = Except.ok j0)
    (ops : List Op) :
    (statusNonTerminal (run j0 ops).1.status = true →
      (run j0 ops).1.escrow = pay) ∧
    (statusTerminal (run j0 ops).1.status = true →
      (run j0 ops).1.escrow = 0) ∧
    (run j0 ops).2.length ≤ 1 ∧
    (∀ t ∈ (run j0 ops).2, t.amount = pay) ∧
    (∀ s n j ts, settle_job_internal (run j0 ops).1 s n = Except.ok (j, ts) →
      ∃ w, (run j0 ops).1.worker = some w ∧ ts = [⟨w, pay⟩] ∧ j.escrow = 0) ∧
    (∀ s n j ts, refund_job_internal (run j0 ops).1 s n = Except.ok (j, ts) →
      ts = [⟨req, pay⟩] ∧ j.escrow = 0) := by
  obtain ⟨hInv0, hp0, _, _, _⟩ := create_job_ok_inv hc
  obtain ⟨hInv, hamt, hcount⟩ := run_escrow_inv hInv0 ops
  obtain ⟨hbud, hreq, hpos, hnt, hterm, hvalid⟩ := hInv
  refine ⟨hnt, hterm, ?_, hamt, ?_, ?_⟩
  · have hle : paidFlag (run j0 ops).1 ≤ 1 := by
      unfold paidFlag
      split <;> omega
    omega
  · intro s n j ts hok
    obtain ⟨w, h1, h2, h3, h4⟩ := (settle_ok_iff _ _ _ _).mp hok
    have hesc : (run j0 ops).1.escrow = pay := by
      refine hnt ?_
      simp [statusNonTerminal, h1, STATUS_SUBMITTED, STATUS_CREATED,
        STATUS_ACCEPTED]
    have hrel : release_all_to (run j0 ops).1.escrow w = (0, pay, [⟨w, pay⟩]) := by
      simp [release_all_to, hesc, hpos]
    simp only [Prod.mk.injEq] at h4
    refine ⟨w, h3, ?_, ?_⟩
    · rw [h4.2, hrel]
    · rw [h4.1, hrel]
  · intro s n j ts hok
    obtain ⟨h1, h2, h3, h4⟩ := (refund_ok_iff _ _ _ _).mp hok
    have hesc : (run j0 ops).1.escrow = pay := by
      refine hnt ?_
      rcases h1 with h1 | h1 | h1 <;>
        simp [statusNonTerminal, h1, STATUS_SUBMITTED, STATUS_CREATED,
          STATUS_ACCEPTED]
    have hrel : refund_all_to (run j0 ops).1.escrow s = (0, pay, [⟨s, pay⟩]) := by
      simp [refund_all_to, release_all_to, hesc, hpos]
    simp only [Prod.mk.injEq] at h4
    constructor
    · rw [h4.2, hrel, h2, hreq]
    · rw [h4.1, hrel]

/-- Witness for the C1 theorem along the concrete happy path. -/
theorem escrow_funds_conservation_witness :
    (run jobCreatedEx
      [Op.accept 2 20, Op.submit 2 "u" [1, 2] 30, Op.settle 7 40]).2.length ≤ 1 ∧
    ∀ t ∈ (run jobCreatedEx
      [Op.accept 2 20, Op.submit 2 "u" [1, 2] 30, Op.settle 7 40]).2,
      t.amount = 25 :=
  ⟨(escrow_funds_conservation "d" 100 25 7 10 jobCreatedEx rfl
      [Op.accept 2 20, Op.submit 2 "u" [1, 2] 30, Op.settle 7 40]).2.2.1,
   (escrow_funds_conservation "d" 100 25 7 10 jobCreatedEx rfl
      [Op.accept 2 20, Op.submit 2 "u" [1, 2] 30, Op.settle 7 40]).2.2.2.1⟩

end Inferrail
